import Mathlib

/-!
# Parser combinators of lib/parsec/parser.js

A shallow embedding of the combinator engine: the Response sum type, the
Parser wrapper around one step function, and the combinators bind, choice,
map, opt, rep, optrep, returns, error, eos, satisfy and try, followed by the
properties that the specification states about them.

A step function is a JavaScript function, so a call of it may yield no
Response at all (it may loop). The embedding keeps that possibility: a step
function returns an Option, and none stands for a call that gives nothing
back. Every combinator hands none on exactly where the source would wait
for the call that does not come back.
-/

namespace Masala

/-! ## Data model -/

/-- Modelled from the spec: the stream contract (the stream module is not among
the sources). A stream of type σ over elements of type τ answers get(index),
which is absent past the end, and endOfStream(index). -/
class Stream (σ : Type) (τ : outParam Type) where
  get : σ → Nat → Option τ
  endOfStream : σ → Nat → Bool

/-- Modelled from the spec: a concrete stream, the random-access view over a
finite sequence of elements (the stream module is not among the sources). -/
instance listStream (τ : Type) : Stream (List τ) τ where
  get := fun s i => s.get? i
  endOfStream := fun s i => decide (s.length ≤ i)

/-- Modelled from the spec: the Accept variant of a Response (response.js is not
among the sources), with its value, stream, next index and consumed flag. -/
structure Accept (α σ : Type) where
  value : α
  input : σ
  index : Nat
  consumed : Bool
deriving DecidableEq, Repr

/-- Modelled from the spec: the Reject variant of a Response (response.js is not
among the sources), with the failing index and the consumed flag. -/
structure Reject where
  index : Nat
  consumed : Bool
deriving DecidableEq, Repr

/-- Modelled from the spec: a Response is an Accept or a Reject (response.js is
not among the sources). -/
inductive Response (α σ : Type) where
  | accepted (a : Accept α σ)
  | rejected (r : Reject)
deriving DecidableEq, Repr

/-- Modelled from the spec: parser.js reads the position of an Accept under two
property names, index (bind, line 34) and offset (bind, line 39). The spec
gives an Accept one position, its next index, so both names read that field. -/
@[reducible] def Accept.offset {α σ : Type} (a : Accept α σ) : Nat := a.index

/-- Modelled from the spec: parser.js reads the position of a Reject under two
property names, offset (bind, line 45) and index (try, line 197). The spec
gives a Reject one position, so both names read that field. -/
@[reducible] def Reject.offset (r : Reject) : Nat := r.index

/-- Modelled from the spec: the constructor response.accept(value, input, index,
consumed) of the missing response.js. -/
def response.accept {α σ : Type} (value : α) (input : σ) (index : Nat)
    (consumed : Bool) : Response α σ :=
  Response.accepted ⟨value, input, index, consumed⟩

/-- Modelled from the spec: the constructor response.reject(index, consumed) of
the missing response.js. -/
def response.reject {α σ : Type} (index : Nat) (consumed : Bool) : Response α σ :=
  Response.rejected ⟨index, consumed⟩

/-- Modelled from the spec: fold(onAccept, onReject) of the missing response.js,
the case analysis of a Response. -/
def Response.fold {α σ γ : Type} (r : Response α σ) (onAccept : Accept α σ → γ)
    (onReject : Reject → γ) : γ :=
  match r with
  | Response.accepted a => onAccept a
  | Response.rejected e => onReject e

/-- Modelled from the spec: map(f) of the missing response.js applies f to the
accepted value and leaves a Reject as it is. -/
def Response.map {α β σ : Type} (r : Response α σ) (f : α → β) : Response β σ :=
  match r with
  | Response.accepted a => Response.accepted ⟨f a.value, a.input, a.index, a.consumed⟩
  | Response.rejected e => Response.rejected e

/-- The Parser of parser.js, lines 22 to 25: a wrapper around one step function
from a stream and an index to a Response. The result none stands for a call
of the step function that gives no Response back. -/
structure Parser (α σ : Type) where
  parse : σ → Nat → Option (Response α σ)

/-! ## Core algebra -/

/-- Parser.prototype.bind, parser.js lines 27 to 56. -/
def Parser.bind {α β σ : Type} (self : Parser α σ) (f : α → Parser β σ) : Parser β σ :=
  ⟨fun input index =>
    (self.parse input index).bind fun r =>
      r.fold
        (fun accept =>
          ((f accept.value).parse accept.input accept.index).bind fun r_b =>
            r_b.fold
              (fun accept_b =>
                some (response.accept accept_b.value accept_b.input accept_b.offset
                  (accept.consumed || accept_b.consumed)))
              (fun reject =>
                some (response.reject reject.offset (accept.consumed || reject.consumed))))
        (fun reject => some (Response.rejected reject))⟩

/-- Parser.prototype.choice, parser.js lines 58 to 76. -/
def Parser.choice {α σ : Type} (self q : Parser α σ) : Parser α σ :=
  ⟨fun input index =>
    (self.parse input index).bind fun r =>
      r.fold
        (fun accept => some (Response.accepted accept))
        (fun reject =>
          if reject.consumed then some (Response.rejected reject)
          else q.parse input index)⟩

/-- Parser.prototype.flatmap, parser.js lines 78 to 81. -/
def Parser.flatmap {α β σ : Type} (self : Parser α σ) (f : α → Parser β σ) : Parser β σ :=
  self.bind f

/-- Parser.prototype.map, parser.js lines 83 to 90. -/
def Parser.map {α β σ : Type} (self : Parser α σ) (f : α → β) : Parser β σ :=
  ⟨fun input index => (self.parse input index).map fun r => r.map f⟩

/-- Parser.prototype.or, parser.js lines 127 to 130. -/
def Parser.or {α σ : Type} (self p : Parser α σ) : Parser α σ :=
  self.choice p

/-! ## Primitive parsers -/

/-- The function returns, parser.js lines 153 to 158. -/
def returns {α σ : Type} (v : α) : Parser α σ :=
  ⟨fun input index => some (response.accept v input index false)⟩

/-- The function error, parser.js lines 160 to 165. -/
def error {α σ : Type} : Parser α σ :=
  ⟨fun _ index => some (response.reject index false)⟩

/-- The function eos, parser.js lines 167 to 176. -/
def eos {σ τ : Type} [Stream σ τ] : Parser Unit σ :=
  ⟨fun input index =>
    if Stream.endOfStream input index then some (response.accept () input index false)
    else some (response.reject index false)⟩

/-- The function satisfy, parser.js lines 178 to 187. The optional element that
get(index) answers is filtered by the predicate and mapped to the Accept;
lazyRecoverWith supplies the Reject when nothing is left. -/
def satisfy {σ τ : Type} [Stream σ τ] (predicate : τ → Bool) : Parser τ σ :=
  ⟨fun input index =>
    some ((((Stream.get input index).filter predicate).map fun value =>
      response.accept value input (index + 1) true).getD (response.reject index false))⟩

/-- The function doTry, parser.js lines 189 to 201, exported as try. -/
def doTry {α σ : Type} (p : Parser α σ) : Parser α σ :=
  ⟨fun input index =>
    (p.parse input index).bind fun r =>
      r.fold
        (fun accept => some (Response.accepted accept))
        (fun reject => some (response.reject reject.index false))⟩

/-- A step function that never gives a Response back. -/
def never {α σ : Type} : Parser α σ :=
  ⟨fun _ _ => none⟩

/-- The function digit, parser.js lines 203 to 208: a function of no argument
that builds the parser of one character between 0 and 9. -/
def digit {σ : Type} [Stream σ Char] (_ : Unit) : Parser Char σ :=
  satisfy fun v => decide ('0' ≤ v) && decide (v ≤ '9')

/-! ## Sequencing and repetition -/

/-- Modelled from the spec: the present variant of the optional value, built by
option.some (the option module is not among the sources). -/
@[reducible] def option.some {α : Type} (v : α) : Option α := Option.some v

/-- Modelled from the spec: the absent variant of the optional value, built by
option.empty() (the option module is not among the sources). -/
@[reducible] def option.empty {α : Type} : Option α := Option.none

/-- Modelled from the spec: orElse(d) of the optional value gives the value that
is present, and d when it is absent (the option module is not among the
sources). -/
@[reducible] def option.orElse {α : Type} (o : Option α) (d : α) : α := o.getD d

/-- Parser.prototype.then, parser.js lines 108 to 115. -/
def Parser.«then» {α β σ : Type} (self : Parser α σ) (p : Parser β σ) : Parser (α × β) σ :=
  self.flatmap fun a => p.map fun b => (a, b)

/-- Parser.prototype.opt, parser.js lines 132 to 135. -/
def Parser.opt {α σ : Type} (self : Parser α σ) : Parser (Option α) σ :=
  (self.map option.some).or (returns option.empty)

/-- Parser.prototype.rep, parser.js lines 137 to 146. The source recursion rep,
optrep, rep goes on for as long as self accepts, so the embedding carries a
bound on the number of nested calls of rep: with no call left the step
function gives nothing back. The call self.optrep() of line 141 is written
out as its body, rep followed by opt (line 150). -/
def Parser.rep {α σ : Type} (self : Parser α σ) : Nat → Parser (List α) σ
  | 0 => never
  | fuel + 1 =>
    self.flatmap fun a =>
      ((self.rep fuel).opt).map fun b => [a] ++ option.orElse b []

/-- Parser.prototype.optrep, parser.js lines 148 to 151, with the bound on the
nested calls of rep. -/
def Parser.optrep {α σ : Type} (self : Parser α σ) (fuel : Nat) :
    Parser (Option (List α)) σ :=
  (self.rep fuel).opt

/-- The names of the methods that parser.js assigns on Parser.prototype, lines
28 to 149. -/
def prototypeMethods : List String :=
  ["bind", "choice", "flatmap", "map", "filter", "match", "then", "thenRight",
    "thenLeft", "or", "opt", "rep", "optrep"]

/-- The members that parser.js gives a Parser, which a call this.name(...) can
reach: the property parse that the constructor sets (line 24) and the methods
of the prototype. -/
def Parser.hasMember (name : String) : Bool :=
  name == "parse" || prototypeMethods.contains name

/-! ## Notions of the specification -/

/-- The longest run of consecutive elements s[i], s[i+1], ... of a finite stream
that all satisfy pred, in stream order. -/
def maximalRun {τ : Type} (pred : τ → Bool) (s : List τ) (i : Nat) : List τ :=
  (s.drop i).takeWhile pred

/-- The property that C15 states of a parser: whenever it accepts at (s,i) with
next index j and consumed flag c, j is at least i, and c is true if and only
if j is greater than i. -/
def ConsumedIffAdvanced {α σ : Type} (p : Parser α σ) : Prop :=
  ∀ (s : σ) (i : Nat) (a : Accept α σ), p.parse s i = some (Response.accepted a) →
    i ≤ a.index ∧ (a.consumed = true ↔ i < a.index)

/-- The accepted occurrences of p in a row from (s,i): Occurrences p s i vs t j c
says that p, run at (s,i) and then each time at the stream and next index of
its last Accept, accepts the values vs one after the other and so reaches
the stream t at the index j; c is the OR of the consumed flags of these
Accepts. With no occurrence, (t,j) is (s,i) itself. -/
inductive Occurrences {α σ : Type} (p : Parser α σ) :
    σ → Nat → List α → σ → Nat → Bool → Prop where
  | done (s : σ) (i : Nat) : Occurrences p s i [] s i false
  | next {s : σ} {i : Nat} (a : Accept α σ) {vs : List α} {t : σ} {j : Nat} {c : Bool} :
      p.parse s i = some (Response.accepted a) →
      Occurrences p a.input a.index vs t j c →
      Occurrences p s i (a.value :: vs) t j (a.consumed || c)

/-! ## Parsers used as concrete inputs -/

/-- The parser satisfy(x => x = 1), then satisfy(x => x = 2): on the stream
[1, 3] it consumes the element 1 and then fails at index 1. -/
def oneThenTwo : Parser Nat (List Nat) :=
  (satisfy fun x => x == 1).bind fun _ => satisfy fun x => x == 2

/-- A step function built by the exported constructor parsec(parse): it accepts
the unit value at the index it is given, consumes nothing, and hands on the
empty stream in place of the stream it was given. -/
def emptied : Parser Unit (List Nat) :=
  ⟨fun _ index => some (response.accept () [] index false)⟩

/-! ## Choice -/

/-- C1. Bounded backtracking in choice: when p.parse(s,i) is a Reject whose
consumed flag is true, p.or(q).parse(s,i) and p.choice(q).parse(s,i) are exactly
that Reject for every q, also for a q whose step function would never give a
Response back at (s,i): q is not run and has no influence on the result. -/
theorem choice_consumed_reject {α σ : Type} (p q : Parser α σ) (s : σ) (i : Nat)
    (r : Reject) (hp : p.parse s i = some (Response.rejected r))
    (hc : r.consumed = true) :
    (p.or q).parse s i = some (Response.rejected r) ∧
      (p.choice q).parse s i = some (Response.rejected r) := by
  simp [Parser.or, Parser.choice, Response.fold, hp, hc]

/-- Witness of C1: oneThenTwo on [1, 3] consumes the element 1 and rejects at
index 1; the choice with a parser that never gives a Response back is that
Reject. -/
theorem choice_consumed_reject_witness :
    oneThenTwo.parse [1, 3] 0 = some (Response.rejected ⟨1, true⟩) ∧
      ((oneThenTwo.or never).parse [1, 3] 0 = some (Response.rejected ⟨1, true⟩) ∧
        (oneThenTwo.choice never).parse [1, 3] 0 = some (Response.rejected ⟨1, true⟩)) :=
  ⟨by decide, choice_consumed_reject oneThenTwo never [1, 3] 0 ⟨1, true⟩ (by decide) rfl⟩

/-- C2. Left-biased choice: when p.parse(s,i) is an Accept, p.or(q).parse(s,i)
equals p.parse(s,i), the same Accept with the same value, stream, next index
and consumed flag, whatever q would do at i. -/
theorem choice_left_biased {α σ : Type} (p q : Parser α σ) (s : σ) (i : Nat)
    (a : Accept α σ) (hp : p.parse s i = some (Response.accepted a)) :
    (p.or q).parse s i = p.parse s i ∧
      (p.or q).parse s i = some (Response.accepted a) := by
  simp [Parser.or, Parser.choice, Response.fold, hp]

/-- Witness of C2: satisfy(x = 1) and returns(7) both accept on [1, 3] at index
0, and the choice yields the Accept of the left parser. -/
theorem choice_left_biased_witness :
    (satisfy fun x => x == 1).parse [1, 3] 0 = some (response.accept 1 [1, 3] 1 true) ∧
      (returns 7 : Parser Nat (List Nat)).parse [1, 3] 0 =
        some (response.accept 7 [1, 3] 0 false) ∧
      (((satisfy fun x => x == 1).or (returns 7)).parse [1, 3] 0 =
          (satisfy fun x => x == 1).parse [1, 3] 0 ∧
        ((satisfy fun x => x == 1).or (returns 7)).parse [1, 3] 0 =
          some (Response.accepted ⟨1, [1, 3], 1, true⟩)) :=
  ⟨by decide, by decide,
    choice_left_biased (satisfy fun x => x == 1) (returns 7) [1, 3] 0 ⟨1, [1, 3], 1, true⟩
      (by decide)⟩

/-- C3. Choice retries at the original index: when p.parse(s,i) is a Reject whose
consumed flag is false, p.or(q).parse(s,i) equals q.parse(s,i), so q is run on
the same stream s at the starting index i, whatever index p failed at. -/
theorem choice_retry_original_index {α σ : Type} (p q : Parser α σ) (s : σ) (i : Nat)
    (r : Reject) (hp : p.parse s i = some (Response.rejected r))
    (hc : r.consumed = false) :
    (p.or q).parse s i = q.parse s i := by
  simp [Parser.or, Parser.choice, Response.fold, hp, hc]

/-- Witness of C3: try(oneThenTwo) on [1, 3] rejects at index 1 without the
consumed flag, and the choice runs satisfy(x = 1) at index 0, which accepts. -/
theorem choice_retry_original_index_witness :
    (doTry oneThenTwo).parse [1, 3] 0 = some (Response.rejected ⟨1, false⟩) ∧
      (satisfy fun x => x == 1).parse [1, 3] 0 = some (response.accept 1 [1, 3] 1 true) ∧
      ((doTry oneThenTwo).or (satisfy fun x => x == 1)).parse [1, 3] 0 =
        (satisfy fun x => x == 1).parse [1, 3] 0 :=
  ⟨by decide, by decide,
    choice_retry_original_index (doTry oneThenTwo) (satisfy fun x => x == 1) [1, 3] 0
      ⟨1, false⟩ (by decide) rfl⟩

/-! ## Bind -/

/-- Counterexample to C4 as stated: emptied accepts on [1] at index 0 with next
index 0, and satisfy(x = 1) run on the original stream [1] at index 0 accepts
the value 1 with next index 1, yet the bind rejects at index 0: the second
step is run on the stream carried by the first Accept, here the empty one. -/
theorem bind_original_stream_counterexample :
    emptied.parse [1] 0 = some (response.accept () [] 0 false) ∧
      (satisfy fun x => x == 1).parse [1] 0 = some (response.accept 1 [1] 1 true) ∧
      (emptied.bind fun _ => satisfy fun x => x == 1).parse [1] 0 =
        some (response.reject 0 false) ∧
      (emptied.bind fun _ => satisfy fun x => x == 1).parse [1] 0 ≠
        some (response.accept 1 [1] 1 (false || true)) := by
  decide

/-- C4, amended. Bind sequences and ORs the consumed flags: when p.parse(s,i)
accepts the value a with stream t, next index j and flag c1, and f(a) run on
that stream t at index j accepts the value b with stream u, next index k and
flag c2, then p.bind(f).parse(s,i) and p.flatmap(f).parse(s,i) accept the value
b with stream u, next index k and consumed flag c1 OR c2. -/
theorem bind_accept_or_consumed {α β σ : Type} (p : Parser α σ) (f : α → Parser β σ)
    (s : σ) (i : Nat) (a : α) (t : σ) (j : Nat) (c1 : Bool) (b : β) (u : σ) (k : Nat)
    (c2 : Bool) (hp : p.parse s i = some (response.accept a t j c1))
    (hf : (f a).parse t j = some (response.accept b u k c2)) :
    (p.bind f).parse s i = some (response.accept b u k (c1 || c2)) ∧
      (p.flatmap f).parse s i = some (response.accept b u k (c1 || c2)) := by
  simp only [response.accept] at hp hf
  simp [Parser.flatmap, Parser.bind, Response.fold, response.accept, hp, hf]

/-- Witness of C4, amended: satisfy(x = 1) accepts on [1, 3] with next index 1
and flag true, returns(7) run at index 1 accepts with flag false, and the
bind accepts 7 with next index 1 and flag true. -/
theorem bind_accept_or_consumed_witness :
    (satisfy fun x => x == 1).parse [1, 3] 0 = some (response.accept 1 [1, 3] 1 true) ∧
      (returns 7 : Parser Nat (List Nat)).parse [1, 3] 1 =
        some (response.accept 7 [1, 3] 1 false) ∧
      (((satisfy fun x => x == 1).bind fun _ => returns 7).parse [1, 3] 0 =
          some (response.accept 7 [1, 3] 1 (true || false)) ∧
        ((satisfy fun x => x == 1).flatmap fun _ => returns 7).parse [1, 3] 0 =
          some (response.accept 7 [1, 3] 1 (true || false))) :=
  ⟨by decide, by decide,
    bind_accept_or_consumed (satisfy fun x => x == 1) (fun _ => returns 7) [1, 3] 0 1
      [1, 3] 1 true 7 [1, 3] 1 false (by decide) (by decide)⟩

/-- Counterexample to C5 as stated: satisfy(x = 1) accepts on [1] with the
consumed flag true, error run at its next index 1 produces the Reject at index
1 with the consumed flag false, and the bind rejects at index 1 with the
consumed flag true: the flag of the first Reject is not kept. -/
theorem bind_reject_flag_counterexample :
    (satisfy fun x => x == 1).parse [1] 0 = some (response.accept 1 [1] 1 true) ∧
      (error : Parser Nat (List Nat)).parse [1] 1 = some (response.reject 1 false) ∧
      ((satisfy fun x => x == 1).bind fun _ => (error : Parser Nat (List Nat))).parse [1] 0 =
        some (response.reject 1 true) ∧
      ((satisfy fun x => x == 1).bind fun _ => (error : Parser Nat (List Nat))).parse [1] 0 ≠
        (error : Parser Nat (List Nat)).parse [1] 1 := by
  decide

/-- C5, amended. Whenever p.bind(f).parse(s,i) rejects, either p itself rejects at
(s,i) and the Reject returned is exactly that Reject, or p accepts and f(a),
run on the stream of that Accept at its next index, rejects, and the Reject
returned has the index of that Reject and, as its consumed flag, the flag of
the Accept of p OR the flag of that Reject. -/
theorem bind_reject_first {α β σ : Type} (p : Parser α σ) (f : α → Parser β σ)
    (s : σ) (i : Nat) (r : Reject)
    (h : (p.bind f).parse s i = some (Response.rejected r)) :
    p.parse s i = some (Response.rejected r) ∨
      ∃ (a : Accept α σ) (e : Reject),
        p.parse s i = some (Response.accepted a) ∧
        (f a.value).parse a.input a.index = some (Response.rejected e) ∧
        r = ⟨e.index, a.consumed || e.consumed⟩ := by
  simp only [Parser.bind] at h
  cases hp : p.parse s i with
  | none => simp [hp] at h
  | some r1 =>
    cases r1 with
    | rejected e1 =>
      simp [hp, Response.fold] at h
      simp [h]
    | accepted a =>
      right
      cases hf : (f a.value).parse a.input a.index with
      | none => simp [hp, hf, Response.fold] at h
      | some r2 =>
        cases r2 with
        | accepted a2 => simp [hp, hf, Response.fold, response.accept] at h
        | rejected e =>
          simp [hp, hf, Response.fold, response.reject] at h
          exact ⟨a, e, rfl, hf, h.symm⟩

/-- Witness of C5, amended: satisfy(x = 1) bound to error on [1] at index 0. -/
theorem bind_reject_first_witness :
    ((satisfy fun x => x == 1).bind fun _ => (error : Parser Nat (List Nat))).parse [1] 0 =
        some (Response.rejected ⟨1, true⟩) ∧
      ((satisfy fun x => x == 1).parse [1] 0 = some (Response.rejected ⟨1, true⟩) ∨
        ∃ (a : Accept Nat (List Nat)) (e : Reject),
          (satisfy fun x => x == 1).parse [1] 0 = some (Response.accepted a) ∧
          (error : Parser Nat (List Nat)).parse a.input a.index = some (Response.rejected e) ∧
          (⟨1, true⟩ : Reject) = ⟨e.index, a.consumed || e.consumed⟩) :=
  ⟨by decide,
    bind_reject_first (satisfy fun x => x == 1) (fun _ => error) [1] 0 ⟨1, true⟩ (by decide)⟩

/-! ## Monad laws -/

/-- C6. Monad left identity: returns(v).bind(f).parse(s,i) equals f(v).parse(s,i)
for every value v, continuation f, stream s and index i: the same variant,
value, stream, index and consumed flag, and no Response where f(v) gives
none. -/
theorem bind_left_identity {α β σ : Type} (v : α) (f : α → Parser β σ) (s : σ) (i : Nat) :
    ((returns v).bind f).parse s i = (f v).parse s i := by
  simp only [Parser.bind, returns, response.accept, Option.some_bind, Response.fold]
  cases (f v).parse s i with
  | none => rfl
  | some r =>
    cases r with
    | accepted a => simp [response.accept]
    | rejected e => simp [response.reject]

/-- C7. Monad right identity: p.bind(returns).parse(s,i) equals p.parse(s,i) for
every parser p, stream s and index i: the same variant, value, stream, index
and consumed flag. -/
theorem bind_right_identity {α σ : Type} (p : Parser α σ) (s : σ) (i : Nat) :
    (p.bind returns).parse s i = p.parse s i := by
  simp only [Parser.bind, returns]
  cases p.parse s i with
  | none => rfl
  | some r =>
    cases r with
    | accepted a => simp [Response.fold, response.accept]
    | rejected e => simp [Response.fold]

/-- C8. Monad associativity: p.bind(f).bind(g).parse(s,i) equals
p.bind(x => f(x).bind(g)).parse(s,i) for every parser p, continuations f and g,
stream s and index i, on Accept and on Reject alike, whichever step fails. -/
theorem bind_assoc {α β γ σ : Type} (p : Parser α σ) (f : α → Parser β σ)
    (g : β → Parser γ σ) (s : σ) (i : Nat) :
    ((p.bind f).bind g).parse s i = (p.bind fun x => (f x).bind g).parse s i := by
  simp only [Parser.bind]
  cases p.parse s i with
  | none => rfl
  | some r =>
    cases r with
    | rejected e => simp [Response.fold]
    | accepted a =>
      simp only [Option.some_bind, Response.fold]
      cases (f a.value).parse a.input a.index with
      | none => rfl
      | some r2 =>
        cases r2 with
        | rejected e2 => simp [response.reject]
        | accepted a2 =>
          simp only [Option.some_bind, response.accept]
          cases (g a2.value).parse a2.input a2.index with
          | none => rfl
          | some r3 =>
            cases r3 with
            | rejected e3 => simp [response.reject, Bool.or_assoc]
            | accepted a3 => simp [Bool.or_assoc]

/-! ## Backtracking control -/

/-- C9. The function try clears the consumed flag on failure only: when
p.parse(s,i) is an Accept, try(p).parse(s,i) is that same Accept; when
p.parse(s,i) is a Reject at index r with any consumed flag, try(p).parse(s,i)
is the Reject at the same index r with the consumed flag false. -/
theorem doTry_clears_consumed {α σ : Type} (p : Parser α σ) (s : σ) (i : Nat) :
    (∀ a : Accept α σ, p.parse s i = some (Response.accepted a) →
        (doTry p).parse s i = some (Response.accepted a)) ∧
      (∀ e : Reject, p.parse s i = some (Response.rejected e) →
        (doTry p).parse s i = some (response.reject e.index false)) := by
  constructor
  · intro a hp
    simp [doTry, Response.fold, hp]
  · intro e hp
    simp [doTry, Response.fold, hp]

/-- Witness of C9: satisfy(x = 1) accepts on [1, 3], and try leaves the Accept;
oneThenTwo rejects on [1, 3] at index 1 with the consumed flag true, and try
turns it into the Reject at index 1 with the consumed flag false. -/
theorem doTry_clears_consumed_witness :
    ((satisfy fun x => x == 1).parse [1, 3] 0 = some (Response.accepted ⟨1, [1, 3], 1, true⟩) ∧
        (doTry (satisfy fun x => x == 1)).parse [1, 3] 0 =
          some (Response.accepted ⟨1, [1, 3], 1, true⟩)) ∧
      (oneThenTwo.parse [1, 3] 0 = some (Response.rejected ⟨1, true⟩) ∧
        (doTry oneThenTwo).parse [1, 3] 0 = some (response.reject 1 false)) :=
  ⟨⟨by decide,
      (doTry_clears_consumed (satisfy fun x => x == 1) [1, 3] 0).1 ⟨1, [1, 3], 1, true⟩
        (by decide)⟩,
    ⟨by decide, (doTry_clears_consumed oneThenTwo [1, 3] 0).2 ⟨1, true⟩ (by decide)⟩⟩

/-- C10. The function try re-enables the alternative: when p.parse(s,i) is a
Reject, with either consumed flag, try(p).or(q).parse(s,i) equals q.parse(s,i);
without try, p.or(q).parse(s,i) is the Reject of p when that Reject has the
consumed flag true. -/
theorem doTry_or_alternative {α σ : Type} (p q : Parser α σ) (s : σ) (i : Nat)
    (e : Reject) (hp : p.parse s i = some (Response.rejected e)) :
    ((doTry p).or q).parse s i = q.parse s i ∧
      (e.consumed = true → (p.or q).parse s i = some (Response.rejected e)) := by
  constructor
  · simp [Parser.or, Parser.choice, doTry, Response.fold, response.reject, hp]
  · intro hc
    simp [Parser.or, Parser.choice, Response.fold, hp, hc]

/-- Witness of C10: oneThenTwo consumes the element 1 of [1, 3] and then fails;
with try the choice yields the Accept of returns(7) at index 0, without try
it yields the Reject of oneThenTwo. -/
theorem doTry_or_alternative_witness :
    oneThenTwo.parse [1, 3] 0 = some (Response.rejected ⟨1, true⟩) ∧
      (returns 7 : Parser Nat (List Nat)).parse [1, 3] 0 =
        some (response.accept 7 [1, 3] 0 false) ∧
      (((doTry oneThenTwo).or (returns 7)).parse [1, 3] 0 =
          (returns 7 : Parser Nat (List Nat)).parse [1, 3] 0 ∧
        (oneThenTwo.or (returns 7)).parse [1, 3] 0 = some (Response.rejected ⟨1, true⟩)) :=
  ⟨by decide, by decide,
    (doTry_or_alternative oneThenTwo (returns 7) [1, 3] 0 ⟨1, true⟩ (by decide)).1,
    (doTry_or_alternative oneThenTwo (returns 7) [1, 3] 0 ⟨1, true⟩ (by decide)).2 rfl⟩

/-! ## Option -/

/-- Step equation of opt when self accepts: the Accept is kept, its value made
present. -/
theorem opt_parse_accepted {α σ : Type} (p : Parser α σ) (s : σ) (i : Nat)
    (a : Accept α σ) (hp : p.parse s i = some (Response.accepted a)) :
    p.opt.parse s i = some (response.accept (some a.value) a.input a.index a.consumed) := by
  simp [Parser.opt, Parser.or, Parser.choice, Parser.map, Response.map, Response.fold,
    response.accept, hp]

/-- Step equation of opt when self rejects without the consumed flag: the absent
value is accepted at the starting index. -/
theorem opt_parse_rejected_free {α σ : Type} (p : Parser α σ) (s : σ) (i : Nat)
    (e : Reject) (hp : p.parse s i = some (Response.rejected e))
    (hc : e.consumed = false) :
    p.opt.parse s i = some (response.accept none s i false) := by
  simp [Parser.opt, Parser.or, Parser.choice, Parser.map, Response.map, Response.fold,
    returns, hp, hc]

/-- Step equation of opt when self rejects with the consumed flag: the Reject is
handed on. -/
theorem opt_parse_rejected_consumed {α σ : Type} (p : Parser α σ) (s : σ) (i : Nat)
    (e : Reject) (hp : p.parse s i = some (Response.rejected e))
    (hc : e.consumed = true) :
    p.opt.parse s i = some (Response.rejected e) := by
  simp [Parser.opt, Parser.or, Parser.choice, Parser.map, Response.map, Response.fold,
    hp, hc]

/-- Step equation of opt when self gives no Response back. -/
theorem opt_parse_none {α σ : Type} (p : Parser α σ) (s : σ) (i : Nat)
    (hp : p.parse s i = none) : p.opt.parse s i = none := by
  simp [Parser.opt, Parser.or, Parser.choice, Parser.map, hp]

/-- Counterexample to C13 as stated: oneThenTwo rejects on [1, 3] at index 1 after
consuming the element 1, and oneThenTwo.opt() is that Reject, not an Accept of
the absent value. -/
theorem opt_consumed_reject_counterexample :
    oneThenTwo.parse [1, 3] 0 = some (response.reject 1 true) ∧
      oneThenTwo.opt.parse [1, 3] 0 = some (response.reject 1 true) ∧
      oneThenTwo.opt.parse [1, 3] 0 ≠ some (response.accept none [1, 3] 0 false) := by
  decide

/-- C13, amended. For every parser p, stream s and index i: when p accepts,
p.opt() accepts the present value of p with the stream, next index and consumed
flag of p; when p rejects with the consumed flag false, p.opt() accepts the
absent value at next index i with consumed false; when p rejects with the
consumed flag true, p.opt() is that Reject. -/
theorem opt_accepts_unless_consumed {α σ : Type} (p : Parser α σ) (s : σ) (i : Nat) :
    (∀ a : Accept α σ, p.parse s i = some (Response.accepted a) →
        p.opt.parse s i =
          some (response.accept (some a.value) a.input a.index a.consumed)) ∧
      (∀ e : Reject, p.parse s i = some (Response.rejected e) → e.consumed = false →
        p.opt.parse s i = some (response.accept none s i false)) ∧
      (∀ e : Reject, p.parse s i = some (Response.rejected e) → e.consumed = true →
        p.opt.parse s i = some (Response.rejected e)) :=
  ⟨fun a hp => opt_parse_accepted p s i a hp,
    fun e hp hc => opt_parse_rejected_free p s i e hp hc,
    fun e hp hc => opt_parse_rejected_consumed p s i e hp hc⟩

/-- Witness of C13, amended: satisfy(x = 1) on [1, 3] accepts at index 0 and
rejects without consuming at index 1, and oneThenTwo rejects at index 0 after
consuming. -/
theorem opt_accepts_unless_consumed_witness :
    (satisfy fun x => x == 1).opt.parse [1, 3] 0 =
        some (response.accept (some 1) [1, 3] 1 true) ∧
      (satisfy fun x => x == 1).opt.parse [1, 3] 1 =
        some (response.accept none [1, 3] 1 false) ∧
      oneThenTwo.opt.parse [1, 3] 0 = some (Response.rejected ⟨1, true⟩) :=
  ⟨(opt_accepts_unless_consumed (satisfy fun x => x == 1) [1, 3] 0).1 ⟨1, [1, 3], 1, true⟩
      (by decide),
    (opt_accepts_unless_consumed (satisfy fun x => x == 1) [1, 3] 1).2.1 ⟨1, false⟩
      (by decide) rfl,
    (opt_accepts_unless_consumed oneThenTwo [1, 3] 0).2.2 ⟨1, true⟩ (by decide) rfl⟩

/-! ## The primitive satisfy -/

/-- C16. The parser satisfy(pred) consumes exactly one element or nothing: it
accepts at (s,i) if and only if s.get(i) is present with an element x for which
pred(x) holds, and the Accept then has the value x, the same stream s, next
index i+1 and consumed true; in every other case, the element absent or pred(x)
false, the result is the Reject at index i with consumed false. -/
theorem satisfy_one_or_nothing {σ τ : Type} [Stream σ τ] (pred : τ → Bool) (s : σ)
    (i : Nat) :
    ((∃ a, (satisfy pred).parse s i = some (Response.accepted a)) ↔
        ∃ x, Stream.get s i = some x ∧ pred x = true) ∧
      (∀ x, Stream.get s i = some x → pred x = true →
        (satisfy pred).parse s i = some (response.accept x s (i + 1) true)) ∧
      ((Stream.get s i = none ∨ ∃ x, Stream.get s i = some x ∧ pred x = false) →
        (satisfy pred).parse s i = some (response.reject i false)) := by
  cases hg : Stream.get s i with
  | none => simp [satisfy, hg, response.reject, Option.filter]
  | some x =>
    cases hx : pred x with
    | false => simp [satisfy, hg, hx, response.reject, Option.filter]
    | true => simp [satisfy, hg, hx, response.accept, Option.filter]

/-- Witness of C16: on the stream [1, 3], satisfy(x = 1) accepts the element 1 at
index 0, rejects the element 3 at index 1, and rejects past the end. -/
theorem satisfy_one_or_nothing_witness :
    (satisfy fun x => x == 1).parse [1, 3] 0 = some (response.accept 1 [1, 3] 1 true) ∧
      (satisfy fun x => x == 1).parse [1, 3] 1 = some (response.reject 1 false) ∧
      (satisfy fun x => x == 1).parse [1, 3] 2 = some (response.reject 2 false) :=
  ⟨(satisfy_one_or_nothing (fun x => x == 1) [1, 3] 0).2.1 1 (by decide) (by decide),
    (satisfy_one_or_nothing (fun x => x == 1) [1, 3] 1).2.2 (Or.inr ⟨3, by decide, by decide⟩),
    (satisfy_one_or_nothing (fun x => x == 1) [1, 3] 2).2.2 (Or.inl (by decide))⟩

/-! ## Associativity of choice -/

/-- C20. Choice is associative: p.or(q).or(r).parse(s,i) equals
p.or(q.or(r)).parse(s,i) for every parser p, q and r, stream s and index i, in
every combination of accept, consumed reject and non-consumed reject. -/
theorem choice_assoc {α σ : Type} (p q r : Parser α σ) (s : σ) (i : Nat) :
    ((p.or q).or r).parse s i = (p.or (q.or r)).parse s i := by
  simp only [Parser.or, Parser.choice]
  cases p.parse s i with
  | none => rfl
  | some x =>
    cases x with
    | accepted a => simp [Response.fold]
    | rejected e =>
      cases hc : e.consumed with
      | true => simp [Response.fold, hc]
      | false => simp [Response.fold, hc]

/-! ## Step equations of the repetition -/

/-- The body of rep as the source writes it (lines 140 to 144): self bound to
the continuation that maps the result of self.optrep(). -/
theorem rep_succ_eq {α σ : Type} (p : Parser α σ) (fuel : Nat) :
    p.rep (fuel + 1) =
      p.flatmap fun a => (p.optrep fuel).map fun b => [a] ++ option.orElse b [] :=
  rfl

/-- With no nested call left, rep gives no Response back. -/
theorem rep_zero_parse {α σ : Type} (p : Parser α σ) (s : σ) (i : Nat) :
    (p.rep 0).parse s i = none :=
  rfl

/-- Step equation of rep when the first occurrence gives no Response back. -/
theorem rep_succ_none {α σ : Type} (p : Parser α σ) (fuel : Nat) (s : σ) (i : Nat)
    (hp : p.parse s i = none) : (p.rep (fuel + 1)).parse s i = none := by
  simp [Parser.rep, Parser.flatmap, Parser.bind, hp]

/-- Step equation of rep when the first occurrence rejects. -/
theorem rep_succ_rejected {α σ : Type} (p : Parser α σ) (fuel : Nat) (s : σ) (i : Nat)
    (e : Reject) (hp : p.parse s i = some (Response.rejected e)) :
    (p.rep (fuel + 1)).parse s i = some (Response.rejected e) := by
  simp [Parser.rep, Parser.flatmap, Parser.bind, Response.fold, hp]

/-- Step equation of rep when the first occurrence accepts and the nested rep
gives no Response back. -/
theorem rep_succ_accepted_none {α σ : Type} (p : Parser α σ) (fuel : Nat) (s : σ)
    (i : Nat) (a : Accept α σ) (hp : p.parse s i = some (Response.accepted a))
    (hr : (p.rep fuel).parse a.input a.index = none) :
    (p.rep (fuel + 1)).parse s i = none := by
  have ho := opt_parse_none (p.rep fuel) a.input a.index hr
  simp [Parser.rep, Parser.flatmap, Parser.bind, Parser.map, Response.fold, hp, ho]

/-- Step equation of rep when the first occurrence accepts and the nested rep
accepts: the value of the first occurrence is put in front of the list. -/
theorem rep_succ_accepted_accepted {α σ : Type} (p : Parser α σ) (fuel : Nat) (s : σ)
    (i : Nat) (a : Accept α σ) (b : Accept (List α) σ)
    (hp : p.parse s i = some (Response.accepted a))
    (hr : (p.rep fuel).parse a.input a.index = some (Response.accepted b)) :
    (p.rep (fuel + 1)).parse s i =
      some (response.accept (a.value :: b.value) b.input b.index
        (a.consumed || b.consumed)) := by
  have ho := opt_parse_accepted (p.rep fuel) a.input a.index b hr
  simp [Parser.rep, Parser.flatmap, Parser.bind, Parser.map, Response.map, Response.fold,
    response.accept, hp, ho]

/-- Step equation of rep when the first occurrence accepts and the nested rep
rejects without the consumed flag: the list ends with the first value. -/
theorem rep_succ_accepted_rejected_free {α σ : Type} (p : Parser α σ) (fuel : Nat)
    (s : σ) (i : Nat) (a : Accept α σ) (e : Reject)
    (hp : p.parse s i = some (Response.accepted a))
    (hr : (p.rep fuel).parse a.input a.index = some (Response.rejected e))
    (hc : e.consumed = false) :
    (p.rep (fuel + 1)).parse s i =
      some (response.accept [a.value] a.input a.index a.consumed) := by
  have ho := opt_parse_rejected_free (p.rep fuel) a.input a.index e hr hc
  simp [Parser.rep, Parser.flatmap, Parser.bind, Parser.map, Response.map, Response.fold,
    response.accept, hp, ho]

/-- Step equation of rep when the first occurrence accepts and the nested rep
rejects with the consumed flag: the whole repetition rejects there. -/
theorem rep_succ_accepted_rejected_consumed {α σ : Type} (p : Parser α σ) (fuel : Nat)
    (s : σ) (i : Nat) (a : Accept α σ) (e : Reject)
    (hp : p.parse s i = some (Response.accepted a))
    (hr : (p.rep fuel).parse a.input a.index = some (Response.rejected e))
    (hc : e.consumed = true) :
    (p.rep (fuel + 1)).parse s i = some (Response.rejected e) := by
  have ho := opt_parse_rejected_consumed (p.rep fuel) a.input a.index e hr hc
  have he : (⟨e.index, true⟩ : Reject) = e := by
    cases e
    simp_all
  simp [Parser.rep, Parser.flatmap, Parser.bind, Parser.map, Response.map, Response.fold,
    response.reject, hp, ho, hc, he]

/-- One more nested call does not change a Response that rep already gives. -/
theorem rep_fuel_succ {α σ : Type} (p : Parser α σ) :
    ∀ (fuel : Nat) (s : σ) (i : Nat) (r : Response (List α) σ),
      (p.rep fuel).parse s i = some r → (p.rep (fuel + 1)).parse s i = some r := by
  intro fuel
  induction fuel with
  | zero =>
    intro s i r h
    simp [rep_zero_parse] at h
  | succ m ih =>
    intro s i r h
    cases hp : p.parse s i with
    | none =>
      rw [rep_succ_none p m s i hp] at h
      simp at h
    | some x =>
      cases x with
      | rejected e =>
        rw [rep_succ_rejected p m s i e hp] at h
        rw [rep_succ_rejected p (m + 1) s i e hp]
        exact h
      | accepted a =>
        cases hr : (p.rep m).parse a.input a.index with
        | none =>
          rw [rep_succ_accepted_none p m s i a hp hr] at h
          simp at h
        | some y =>
          have hr2 := ih a.input a.index y hr
          cases y with
          | accepted b =>
            rw [rep_succ_accepted_accepted p m s i a b hp hr] at h
            rw [rep_succ_accepted_accepted p (m + 1) s i a b hp hr2]
            exact h
          | rejected e =>
            cases hc : e.consumed with
            | true =>
              rw [rep_succ_accepted_rejected_consumed p m s i a e hp hr hc] at h
              rw [rep_succ_accepted_rejected_consumed p (m + 1) s i a e hp hr2 hc]
              exact h
            | false =>
              rw [rep_succ_accepted_rejected_free p m s i a e hp hr hc] at h
              rw [rep_succ_accepted_rejected_free p (m + 1) s i a e hp hr2 hc]
              exact h

/-- A Response that rep gives with some bound on the nested calls is the
Response it gives with every larger bound. -/
theorem rep_fuel_mono {α σ : Type} (p : Parser α σ) (m n : Nat) (hmn : m ≤ n) (s : σ)
    (i : Nat) (r : Response (List α) σ) (h : (p.rep m).parse s i = some r) :
    (p.rep n).parse s i = some r := by
  induction n, hmn using Nat.le_induction with
  | base => exact h
  | succ k _ ih => exact rep_fuel_succ p k s i r ih

/-! ## Rejection of the repetition -/

/-- Counterexample to C11 as stated: oneThenTwo, which consumes two elements on
each success, accepts on [1, 2, 1, 3] at index 0; its second occurrence consumes
the element 1 and fails at index 3, and oneThenTwo.rep() rejects there with the
consumed flag, although the first occurrence did not reject. -/
theorem rep_later_reject_counterexample :
    oneThenTwo.parse [1, 2, 1, 3] 0 = some (response.accept 2 [1, 2, 1, 3] 2 true) ∧
      oneThenTwo.parse [1, 2, 1, 3] 2 = some (response.reject 3 true) ∧
      (oneThenTwo.rep 4).parse [1, 2, 1, 3] 0 = some (response.reject 3 true) := by
  decide

/-- The Response of rep after the accepted occurrences vs from (s,i), when the
next occurrence, at the stream and index reached, rejects: with no accepted
occurrence rep is that Reject; after one or more, rep is that Reject when it
has the consumed flag, and the Accept of the list vs when it has not. -/
theorem rep_of_occurrences {α σ : Type} (p : Parser α σ) {s t : σ} {i j : Nat}
    {vs : List α} {c : Bool} (h : Occurrences p s i vs t j c) (e : Reject)
    (he : p.parse t j = some (Response.rejected e)) :
    ∀ fuel, vs.length < fuel →
      (vs = [] → (p.rep fuel).parse s i = some (Response.rejected e)) ∧
        (vs ≠ [] → e.consumed = true →
          (p.rep fuel).parse s i = some (Response.rejected e)) ∧
        (vs ≠ [] → e.consumed = false →
          (p.rep fuel).parse s i = some (response.accept vs t j c)) := by
  induction h with
  | done s i =>
    intro fuel hfuel
    cases fuel with
    | zero => simp at hfuel
    | succ m =>
      exact ⟨fun _ => rep_succ_rejected p m s i e he, fun hne => absurd rfl hne,
        fun hne => absurd rfl hne⟩
  | @next s i a ws t j c hp hrest ih =>
    intro fuel hfuel
    cases fuel with
    | zero => simp at hfuel
    | succ m =>
      have hm : ws.length < m := by
        simp at hfuel
        omega
      obtain ⟨ih1, ih2, ih3⟩ := ih he m hm
      refine ⟨fun hnil => by simp at hnil, fun _ hc => ?_, fun _ hc => ?_⟩
      · cases ws with
        | nil =>
          exact rep_succ_accepted_rejected_consumed p m s i a e hp (ih1 rfl) hc
        | cons w ws2 =>
          exact rep_succ_accepted_rejected_consumed p m s i a e hp
            (ih2 (by simp) hc) hc
      · cases ws with
        | nil =>
          cases hrest
          rw [rep_succ_accepted_rejected_free p m s i a e hp (ih1 rfl) hc]
          simp [response.accept]
        | cons w ws2 =>
          rw [rep_succ_accepted_accepted p m s i a ⟨w :: ws2, t, j, c⟩ hp
            (ih3 (by simp) hc)]

/-- A Reject of rep is the Reject of the first occurrence, or the Reject, with
the consumed flag, of the occurrence that follows one or more accepted
occurrences from (s,i). -/
theorem rep_rejected_occurrences {α σ : Type} (p : Parser α σ) :
    ∀ (fuel : Nat) (s : σ) (i : Nat) (r : Reject),
      (p.rep fuel).parse s i = some (Response.rejected r) →
      p.parse s i = some (Response.rejected r) ∨
        ∃ (vs : List α) (t : σ) (j : Nat) (c : Bool), vs ≠ [] ∧
          Occurrences p s i vs t j c ∧ p.parse t j = some (Response.rejected r) ∧
          r.consumed = true := by
  intro fuel
  induction fuel with
  | zero =>
    intro s i r h
    simp [rep_zero_parse] at h
  | succ m ih =>
    intro s i r h
    cases hp : p.parse s i with
    | none =>
      rw [rep_succ_none p m s i hp] at h
      simp at h
    | some x =>
      cases x with
      | rejected e =>
        rw [rep_succ_rejected p m s i e hp] at h
        have her : e = r := by simpa using h
        left
        rw [her]
      | accepted a =>
        right
        cases hr : (p.rep m).parse a.input a.index with
        | none =>
          rw [rep_succ_accepted_none p m s i a hp hr] at h
          simp at h
        | some y =>
          cases y with
          | accepted b =>
            rw [rep_succ_accepted_accepted p m s i a b hp hr] at h
            simp [response.accept] at h
          | rejected e =>
            cases hc : e.consumed with
            | false =>
              rw [rep_succ_accepted_rejected_free p m s i a e hp hr hc] at h
              simp [response.accept] at h
            | true =>
              rw [rep_succ_accepted_rejected_consumed p m s i a e hp hr hc] at h
              have her : e = r := by simpa using h
              subst her
              rcases ih a.input a.index e hr with h1 | ⟨vs, t, j, c, _, hocc, hrej, _⟩
              · exact ⟨[a.value], a.input, a.index, a.consumed || false, by simp,
                  Occurrences.next a hp (Occurrences.done a.input a.index), h1, hc⟩
              · exact ⟨a.value :: vs, t, j, a.consumed || c, by simp,
                  Occurrences.next a hp hocc, hrej, hc⟩

/-- C11, amended. When the first occurrence p.parse(s,i) rejects, p.rep() rejects
with exactly that Reject, consumed flag included. When p accepts one or more
occurrences in a row from (s,i), with the values vs, and the occurrence that
follows them rejects: if that Reject has the consumed flag true, p.rep() is
that Reject; if it has the consumed flag false, it only ends the list, and
p.rep() accepts the list vs at the stream and index reached, with the OR of
the consumed flags of the accepted occurrences. Conversely every Reject of
p.rep() is the Reject of the first occurrence or the Reject, with the
consumed flag true, of the occurrence that follows one or more accepted
occurrences from (s,i). -/
theorem rep_rejects_first_or_consumed {α σ : Type} (p : Parser α σ) (s : σ) (i : Nat) :
    (∀ (fuel : Nat) (e : Reject), p.parse s i = some (Response.rejected e) →
        (p.rep (fuel + 1)).parse s i = some (Response.rejected e)) ∧
      (∀ (vs : List α) (t : σ) (j : Nat) (c : Bool) (e : Reject) (fuel : Nat),
        vs ≠ [] → Occurrences p s i vs t j c →
        p.parse t j = some (Response.rejected e) → e.consumed = true →
        vs.length < fuel →
        (p.rep fuel).parse s i = some (Response.rejected e)) ∧
      (∀ (vs : List α) (t : σ) (j : Nat) (c : Bool) (e : Reject) (fuel : Nat),
        vs ≠ [] → Occurrences p s i vs t j c →
        p.parse t j = some (Response.rejected e) → e.consumed = false →
        vs.length < fuel →
        (p.rep fuel).parse s i = some (response.accept vs t j c)) ∧
      (∀ (fuel : Nat) (r : Reject), (p.rep fuel).parse s i = some (Response.rejected r) →
        p.parse s i = some (Response.rejected r) ∨
          ∃ (vs : List α) (t : σ) (j : Nat) (c : Bool), vs ≠ [] ∧
            Occurrences p s i vs t j c ∧ p.parse t j = some (Response.rejected r) ∧
            r.consumed = true) :=
  ⟨fun fuel e hp => rep_succ_rejected p fuel s i e hp,
    fun _ _ _ _ e fuel hne hocc he hc hfuel =>
      (rep_of_occurrences p hocc e he fuel hfuel).2.1 hne hc,
    fun _ _ _ _ e fuel hne hocc he hc hfuel =>
      (rep_of_occurrences p hocc e he fuel hfuel).2.2 hne hc,
    fun fuel r h => rep_rejected_occurrences p fuel s i r h⟩

/-- Witness of C11, amended: satisfy(x = 1) rejects on [3], and so does its
repetition; oneThenTwo accepts once on [1, 2, 1, 3] and its next occurrence
rejects at index 3 after consuming, which is the Reject of its repetition; on
[1, 1, 3] satisfy(x = 1) accepts twice and its third occurrence rejects
without consuming, so the repetition accepts [1, 1] at index 2. -/
theorem rep_rejects_first_or_consumed_witness :
    ((satisfy fun x => x == 1).rep (0 + 1)).parse [3] 0 = some (Response.rejected ⟨0, false⟩) ∧
      (oneThenTwo.rep 2).parse [1, 2, 1, 3] 0 = some (Response.rejected ⟨3, true⟩) ∧
      ((satisfy fun x => x == 1).rep 3).parse [1, 1, 3] 0 =
        some (response.accept [1, 1] [1, 1, 3] 2 true) ∧
      (oneThenTwo.parse [1, 2, 1, 3] 0 = some (Response.rejected ⟨3, true⟩) ∨
        ∃ (vs : List Nat) (t : List Nat) (j : Nat) (c : Bool), vs ≠ [] ∧
          Occurrences oneThenTwo [1, 2, 1, 3] 0 vs t j c ∧
          oneThenTwo.parse t j = some (Response.rejected ⟨3, true⟩) ∧
          (⟨3, true⟩ : Reject).consumed = true) :=
  ⟨(rep_rejects_first_or_consumed (satisfy fun x => x == 1) [3] 0).1 0 ⟨0, false⟩ (by decide),
    (rep_rejects_first_or_consumed oneThenTwo [1, 2, 1, 3] 0).2.1 [2] [1, 2, 1, 3] 2 true
      ⟨3, true⟩ 2 (by decide)
      (Occurrences.next ⟨2, [1, 2, 1, 3], 2, true⟩ (by decide)
        (Occurrences.done [1, 2, 1, 3] 2))
      (by decide) rfl (by decide),
    (rep_rejects_first_or_consumed (satisfy fun x => x == 1) [1, 1, 3] 0).2.2.1 [1, 1]
      [1, 1, 3] 2 true ⟨2, false⟩ 3 (by decide)
      (Occurrences.next ⟨1, [1, 1, 3], 1, true⟩ (by decide)
        (Occurrences.next ⟨1, [1, 1, 3], 2, true⟩ (by decide)
          (Occurrences.done [1, 1, 3] 2)))
      (by decide) rfl (by decide),
    (rep_rejects_first_or_consumed oneThenTwo [1, 2, 1, 3] 0).2.2.2 4 ⟨3, true⟩ (by decide)⟩

/-! ## Termination of the repetition -/

/-- When self always gives a Response on the streams of S, and every Accept of
self there stays in S and moves the index forward within the bound n, rep
gives a Response as soon as it may make more than n - i nested calls. -/
theorem rep_gives_response {α σ : Type} (p : Parser α σ) (S : σ → Prop) (n : Nat)
    (hret : ∀ t k, S t → ∃ r, p.parse t k = some r)
    (hadv : ∀ t k a, S t → p.parse t k = some (Response.accepted a) →
      S a.input ∧ k < a.index ∧ a.index ≤ n) :
    ∀ (fuel : Nat) (s : σ) (i : Nat), S s → n - i < fuel →
      ∃ r, (p.rep fuel).parse s i = some r := by
  intro fuel
  induction fuel with
  | zero =>
    intro s i _ h
    omega
  | succ m ih =>
    intro s i hs hfuel
    obtain ⟨x, hp⟩ := hret s i hs
    cases x with
    | rejected e => exact ⟨_, rep_succ_rejected p m s i e hp⟩
    | accepted a =>
      obtain ⟨hsa, hlt, hle⟩ := hadv s i a hs hp
      obtain ⟨y, hr⟩ := ih a.input a.index hsa (by omega)
      cases y with
      | accepted b => exact ⟨_, rep_succ_accepted_accepted p m s i a b hp hr⟩
      | rejected e =>
        cases hc : e.consumed with
        | true => exact ⟨_, rep_succ_accepted_rejected_consumed p m s i a e hp hr hc⟩
        | false => exact ⟨_, rep_succ_accepted_rejected_free p m s i a e hp hr hc⟩

/-- The Response of rep does not depend on the bound once the bound exceeds
n - i. -/
theorem rep_response_stable {α σ : Type} (p : Parser α σ) (S : σ → Prop) (n : Nat)
    (hret : ∀ t k, S t → ∃ r, p.parse t k = some r)
    (hadv : ∀ t k a, S t → p.parse t k = some (Response.accepted a) →
      S a.input ∧ k < a.index ∧ a.index ≤ n)
    (s : σ) (i : Nat) (hs : S s) :
    ∃ r, ∀ fuel, n - i < fuel → (p.rep fuel).parse s i = some r := by
  obtain ⟨r, hr⟩ := rep_gives_response p S n hret hadv (n - i + 1) s i hs (by omega)
  exact ⟨r, fun fuel hfuel => rep_fuel_mono p (n - i + 1) fuel (by omega) s i r hr⟩

/-- The hazard of the repetition: returns(v) accepts without consuming, and its
repetition gives no Response back, whatever the bound on the nested calls. -/
theorem rep_of_returns_diverges {α σ : Type} (v : α) :
    ∀ (fuel : Nat) (s : σ) (i : Nat), ((returns v : Parser α σ).rep fuel).parse s i = none := by
  intro fuel
  induction fuel with
  | zero => intro s i; rfl
  | succ m ih =>
    intro s i
    exact rep_succ_accepted_none (returns v) m s i ⟨v, s, i, false⟩ rfl (ih s i)

/-- C19. Repetition terminates whenever each repeated unit consumes. Let S hold
of the stream s and of every stream that an Accept of p hands on (S is the
single stream s when p hands its input through, and every stream when nothing
is known of p), and let n, the length of a finite stream s, bound the index.
When the parse of p always returns on S and every Accept of p at an index k
has next index j with k < j and j at most n, then p.rep().parse(s,i) and
p.optrep().parse(s,i) return a Response: the same one for every bound that
allows more than n - i nested calls of rep, that is after at most n - i
successful occurrences of p. -/
theorem rep_optrep_terminate {α σ : Type} (p : Parser α σ) (S : σ → Prop) (n : Nat)
    (hret : ∀ t k, S t → ∃ r, p.parse t k = some r)
    (hadv : ∀ t k a, S t → p.parse t k = some (Response.accepted a) →
      S a.input ∧ k < a.index ∧ a.index ≤ n)
    (s : σ) (i : Nat) (hs : S s) :
    (∃ r, ∀ fuel, n - i < fuel → (p.rep fuel).parse s i = some r) ∧
      (∃ r, ∀ fuel, n - i < fuel → (p.optrep fuel).parse s i = some r) := by
  obtain ⟨r, hr⟩ := rep_response_stable p S n hret hadv s i hs
  refine ⟨⟨r, hr⟩, ?_⟩
  cases r with
  | accepted b =>
    exact ⟨_, fun fuel hfuel => opt_parse_accepted (p.rep fuel) s i b (hr fuel hfuel)⟩
  | rejected e =>
    cases hc : e.consumed with
    | true =>
      exact ⟨_, fun fuel hfuel =>
        opt_parse_rejected_consumed (p.rep fuel) s i e (hr fuel hfuel) hc⟩
    | false =>
      exact ⟨_, fun fuel hfuel =>
        opt_parse_rejected_free (p.rep fuel) s i e (hr fuel hfuel) hc⟩

/-! ## Repetition of a single-element recognizer -/

/-- The parser satisfy(pred) always gives a Response back. -/
theorem satisfy_gives_response {σ τ : Type} [Stream σ τ] (pred : τ → Bool) (s : σ)
    (i : Nat) : ∃ r, (satisfy pred).parse s i = some r :=
  ⟨_, rfl⟩

/-- An Accept of satisfy(pred) on a finite stream: the element at the index
satisfies pred, the stream is handed through and the index moves by one,
within the length of the stream. -/
theorem satisfy_accepted_list {τ : Type} (pred : τ → Bool) (s : List τ) (i : Nat)
    (a : Accept τ (List τ)) (h : (satisfy pred).parse s i = some (Response.accepted a)) :
    s.get? i = some a.value ∧ pred a.value = true ∧ a.input = s ∧ a.index = i + 1 ∧
      a.consumed = true ∧ a.index ≤ s.length := by
  cases hg : s.get? i with
  | none =>
    have hg2 : Stream.get s i = none := hg
    simp [satisfy, hg2, response.reject, Option.filter] at h
  | some x =>
    have hg2 : Stream.get s i = some x := hg
    have hlt : i < s.length := by
      by_contra hge
      have hn : s.get? i = none := by simpa using hge
      rw [hn] at hg
      cases hg
    cases hx : pred x with
    | false => simp [satisfy, hg2, hx, response.reject, Option.filter] at h
    | true =>
      simp [satisfy, hg2, hx, response.accept, Option.filter] at h
      subst h
      exact ⟨rfl, hx, rfl, rfl, rfl, hlt⟩

/-- A Reject of satisfy(pred) is at the starting index, without the consumed
flag. -/
theorem satisfy_rejected {σ τ : Type} [Stream σ τ] (pred : τ → Bool) (s : σ) (i : Nat)
    (e : Reject) (h : (satisfy pred).parse s i = some (Response.rejected e)) :
    e = ⟨i, false⟩ := by
  cases hg : Stream.get s i with
  | none =>
    simp [satisfy, hg, response.reject, Option.filter] at h
    exact h.symm
  | some x =>
    cases hx : pred x with
    | false =>
      simp [satisfy, hg, hx, response.reject, Option.filter] at h
      exact h.symm
    | true => simp [satisfy, hg, hx, response.accept, Option.filter] at h

/-- The run is empty when the stream has no element at the index. -/
theorem maximalRun_of_get_none {τ : Type} (pred : τ → Bool) (s : List τ) (i : Nat)
    (h : s.get? i = none) : maximalRun pred s i = [] := by
  have hl : s.length ≤ i := by simpa using h
  simp [maximalRun, List.drop_eq_nil_of_le hl]

/-- The run at an index that holds the element x: empty when pred(x) fails, and
x followed by the run at the next index when pred(x) holds. -/
theorem maximalRun_of_get_some {τ : Type} (pred : τ → Bool) (s : List τ) :
    ∀ (i : Nat) (x : τ), s.get? i = some x →
      maximalRun pred s i = if pred x then x :: maximalRun pred s (i + 1) else [] := by
  induction s with
  | nil =>
    intro i x h
    simp at h
  | cons y t ih =>
    intro i x h
    cases i with
    | zero =>
      simp at h
      subst h
      simp [maximalRun, List.takeWhile_cons]
    | succ k =>
      simp at h
      have := ih k x (by simpa using h)
      simpa [maximalRun] using this

/-- The element that follows the longest prefix satisfying pred fails pred. -/
theorem takeWhile_next_fails {τ : Type} (pred : τ → Bool) :
    ∀ (l : List τ) (x : τ), l.get? (l.takeWhile pred).length = some x → pred x = false := by
  intro l
  induction l with
  | nil =>
    intro x h
    simp at h
  | cons y t ih =>
    intro x h
    cases hy : pred y with
    | false =>
      simp [List.takeWhile_cons, hy] at h
      rw [← h]
      exact hy
    | true =>
      simp [List.takeWhile_cons, hy] at h
      exact ih x (by simpa using h)

/-- The list maximalRun is the longest run: its elements all satisfy pred, it is
the segment of the stream that starts at i, and the element that follows it,
when there is one, fails pred. -/
theorem maximalRun_is_maximal {τ : Type} (pred : τ → Bool) (s : List τ) (i : Nat) :
    (∀ x ∈ maximalRun pred s i, pred x = true) ∧
      maximalRun pred s i = (s.drop i).take (maximalRun pred s i).length ∧
      (∀ x, s.get? (i + (maximalRun pred s i).length) = some x → pred x = false) := by
  refine ⟨fun x hx => List.mem_takeWhile_imp hx, ?_, ?_⟩
  · exact List.prefix_iff_eq_take.mp (List.takeWhile_prefix pred)
  · intro x hx
    apply takeWhile_next_fails pred (s.drop i) x
    simpa [maximalRun, List.getElem?_drop] using hx

/-- The Response of the repetition of satisfy(pred) on a finite stream, for
every bound that exceeds the length of the run. -/
theorem rep_satisfy_run {τ : Type} (pred : τ → Bool) (s : List τ) :
    ∀ (fuel i : Nat), (maximalRun pred s i).length < fuel →
      ((satisfy pred).rep fuel).parse s i =
        some (if (maximalRun pred s i).length = 0 then response.reject i false
          else response.accept (maximalRun pred s i) s
            (i + (maximalRun pred s i).length) true) := by
  intro fuel
  induction fuel with
  | zero =>
    intro i h
    omega
  | succ m ih =>
    intro i hfuel
    cases hg : s.get? i with
    | none =>
      have hrun := maximalRun_of_get_none pred s i hg
      have hp : (satisfy pred).parse s i = some (Response.rejected ⟨i, false⟩) := by
        have hg2 : Stream.get s i = none := hg
        simp [satisfy, hg2, response.reject, Option.filter]
      rw [rep_succ_rejected (satisfy pred) m s i ⟨i, false⟩ hp, hrun]
      simp [response.reject]
    | some x =>
      have hg2 : Stream.get s i = some x := hg
      have hrun := maximalRun_of_get_some pred s i x hg
      cases hx : pred x with
      | false =>
        have hp : (satisfy pred).parse s i = some (Response.rejected ⟨i, false⟩) := by
          simp [satisfy, hg2, hx, response.reject, Option.filter]
        rw [hx] at hrun
        rw [rep_succ_rejected (satisfy pred) m s i ⟨i, false⟩ hp, hrun]
        simp [response.reject]
      | true =>
        have hp : (satisfy pred).parse s i = some (Response.accepted ⟨x, s, i + 1, true⟩) := by
          simp [satisfy, hg2, hx, response.accept, Option.filter]
        rw [hx] at hrun
        simp only [if_true] at hrun
        have hlen : (maximalRun pred s (i + 1)).length < m := by
          rw [hrun] at hfuel
          simp at hfuel
          omega
        have hin := ih (i + 1) hlen
        rw [hrun]
        by_cases hnil : (maximalRun pred s (i + 1)).length = 0
        · have hnil2 : maximalRun pred s (i + 1) = [] := List.length_eq_zero.mp hnil
          simp only [hnil, if_true] at hin
          rw [rep_succ_accepted_rejected_free (satisfy pred) m s i ⟨x, s, i + 1, true⟩
            ⟨i + 1, false⟩ hp hin rfl, hnil2]
          simp
        · simp only [hnil, if_false] at hin
          rw [rep_succ_accepted_accepted (satisfy pred) m s i ⟨x, s, i + 1, true⟩
            ⟨maximalRun pred s (i + 1), s, i + 1 + (maximalRun pred s (i + 1)).length, true⟩
            hp hin]
          simp [response.accept]
          omega

/-- C14. Repetition of a single-element recognizer returns the maximal matching
run. For every predicate pred, finite stream s and index i, with the longest
run of elements from s[i] on that satisfy pred and its length n: when n = 0,
satisfy(pred).rep().parse(s,i) rejects at index i with consumed false; when n is
at least 1, it accepts the list of the run in stream order with next index
i + n and consumed true, as soon as rep may make more than n nested calls. -/
theorem rep_satisfy_maximal_run {τ : Type} (pred : τ → Bool) (s : List τ) (i : Nat) :
    ((maximalRun pred s i).length = 0 → ∀ fuel,
        ((satisfy pred).rep (fuel + 1)).parse s i = some (response.reject i false)) ∧
      (1 ≤ (maximalRun pred s i).length → ∀ fuel, (maximalRun pred s i).length < fuel →
        ((satisfy pred).rep fuel).parse s i =
          some (response.accept (maximalRun pred s i) s
            (i + (maximalRun pred s i).length) true)) := by
  constructor
  · intro h fuel
    have := rep_satisfy_run pred s (fuel + 1) i (by omega)
    simpa [h] using this
  · intro h fuel hfuel
    have := rep_satisfy_run pred s fuel i hfuel
    have hne : (maximalRun pred s i).length ≠ 0 := by omega
    simpa [hne] using this

/-- Witness of C14: digit().rep() on the characters of 123abc at index 0 accepts
the list of 1, 2 and 3 with next index 3 and consumed true, and at index 3,
where the run is empty, it rejects at index 3 with consumed false. -/
theorem rep_satisfy_maximal_run_witness :
    ((digit ()).rep 4).parse ['1', '2', '3', 'a', 'b', 'c'] 0 =
        some (response.accept ['1', '2', '3'] ['1', '2', '3', 'a', 'b', 'c'] 3 true) ∧
      ((digit ()).rep (0 + 1)).parse ['1', '2', '3', 'a', 'b', 'c'] 3 =
        some (response.reject 3 false) :=
  ⟨(rep_satisfy_maximal_run (fun v => decide ('0' ≤ v) && decide (v ≤ '9'))
      ['1', '2', '3', 'a', 'b', 'c'] 0).2 (by decide) 4 (by decide),
    (rep_satisfy_maximal_run (fun v => decide ('0' ≤ v) && decide (v ≤ '9'))
      ['1', '2', '3', 'a', 'b', 'c'] 3).1 (by decide) 0⟩

/-- Witness of C19: satisfy(x = 1) on the stream [1, 1, 3] of length 3, with S
the single stream [1, 1, 3]: it always returns, hands the stream through and
moves the index by one within the length, so its rep and optrep return. -/
theorem rep_optrep_terminate_witness :
    (∃ r, ∀ fuel, 3 - 0 < fuel →
        ((satisfy fun x => x == 1).rep fuel).parse [1, 1, 3] 0 = some r) ∧
      (∃ r, ∀ fuel, 3 - 0 < fuel →
        ((satisfy fun x => x == 1).optrep fuel).parse [1, 1, 3] 0 = some r) :=
  rep_optrep_terminate (satisfy fun x => x == 1) (fun t => t = [1, 1, 3]) 3
    (fun t k _ => satisfy_gives_response (fun x => x == 1) t k)
    (fun t k a ht h =>
      ⟨(satisfy_accepted_list (fun x => x == 1) t k a h).2.2.1.trans ht,
        by
          have h4 := (satisfy_accepted_list (fun x => x == 1) t k a h).2.2.2.1
          omega,
        by
          have h6 := (satisfy_accepted_list (fun x => x == 1) t k a h).2.2.2.2.2
          rw [ht] at h6
          exact h6⟩)
    [1, 1, 3] 0 rfl

/-! ## Rejection of the optional repetition -/

/-- When no Reject of self on the streams of S has the consumed flag, no Reject
of rep has it either. -/
theorem rep_rejected_free {α σ : Type} (p : Parser α σ) (S : σ → Prop)
    (hadv : ∀ t k a, S t → p.parse t k = some (Response.accepted a) → S a.input)
    (hfree : ∀ t k e, S t → p.parse t k = some (Response.rejected e) → e.consumed = false) :
    ∀ (fuel : Nat) (s : σ) (i : Nat) (r : Reject), S s →
      (p.rep fuel).parse s i = some (Response.rejected r) → r.consumed = false := by
  intro fuel
  induction fuel with
  | zero =>
    intro s i r _ h
    simp [rep_zero_parse] at h
  | succ m ih =>
    intro s i r hs h
    cases hp : p.parse s i with
    | none =>
      rw [rep_succ_none p m s i hp] at h
      simp at h
    | some x =>
      cases x with
      | rejected e =>
        rw [rep_succ_rejected p m s i e hp] at h
        have her : e = r := by simpa using h
        rw [← her]
        exact hfree s i e hs hp
      | accepted a =>
        have hsa := hadv s i a hs hp
        cases hr : (p.rep m).parse a.input a.index with
        | none =>
          rw [rep_succ_accepted_none p m s i a hp hr] at h
          simp at h
        | some y =>
          cases y with
          | accepted b =>
            rw [rep_succ_accepted_accepted p m s i a b hp hr] at h
            simp [response.accept] at h
          | rejected e =>
            have hc := ih a.input a.index e hsa hr
            rw [rep_succ_accepted_rejected_free p m s i a e hp hr hc] at h
            simp [response.accept] at h

/-- Counterexample to C12 as stated: oneThenTwo, which consumes two elements on
each success, matches zero times on [1, 3] at index 0, where it rejects at
index 1 after consuming the element 1; oneThenTwo.optrep() rejects there too. -/
theorem optrep_reject_counterexample :
    oneThenTwo.parse [1, 3] 0 = some (response.reject 1 true) ∧
      (oneThenTwo.optrep 2).parse [1, 3] 0 = some (response.reject 1 true) ∧
      (oneThenTwo.optrep 2).parse [1, 3] 0 ≠ some (response.accept none [1, 3] 0 false) := by
  decide

/-- C12, amended. The parser p.optrep() rejects at (s,i) exactly when p.rep()
rejects there with the consumed flag true, and then with that Reject. When p
rejects at (s,i) with the consumed flag false, p.optrep() accepts the absent
sequence at next index i with consumed false. For a parser p that always
returns, consumes at least one element on each success within the bound n of
a finite stream, and none of whose Rejects has the consumed flag true (on the
streams of S, which hold s and every stream an Accept of p hands on),
p.optrep().parse(s,i) is an Accept. -/
theorem optrep_rejects_only_consumed {α σ : Type} (p : Parser α σ) (s : σ) (i : Nat) :
    (∀ (fuel : Nat) (e : Reject),
        (p.optrep fuel).parse s i = some (Response.rejected e) ↔
          ((p.rep fuel).parse s i = some (Response.rejected e) ∧ e.consumed = true)) ∧
      (∀ (fuel : Nat) (e : Reject), p.parse s i = some (Response.rejected e) →
        e.consumed = false →
        (p.optrep (fuel + 1)).parse s i = some (response.accept none s i false)) ∧
      (∀ (S : σ → Prop) (n : Nat),
        (∀ t k, S t → ∃ r, p.parse t k = some r) →
        (∀ t k a, S t → p.parse t k = some (Response.accepted a) →
          S a.input ∧ k < a.index ∧ a.index ≤ n) →
        (∀ t k e, S t → p.parse t k = some (Response.rejected e) → e.consumed = false) →
        S s →
        ∃ a, ∀ fuel, n - i < fuel →
          (p.optrep fuel).parse s i = some (Response.accepted a)) := by
  refine ⟨?_, ?_, ?_⟩
  · intro fuel e
    constructor
    · intro h
      cases hr : (p.rep fuel).parse s i with
      | none =>
        rw [Parser.optrep, opt_parse_none (p.rep fuel) s i hr] at h
        simp at h
      | some y =>
        cases y with
        | accepted b =>
          rw [Parser.optrep, opt_parse_accepted (p.rep fuel) s i b hr] at h
          simp [response.accept] at h
        | rejected e2 =>
          cases hc : e2.consumed with
          | false =>
            rw [Parser.optrep, opt_parse_rejected_free (p.rep fuel) s i e2 hr hc] at h
            simp [response.accept] at h
          | true =>
            rw [Parser.optrep, opt_parse_rejected_consumed (p.rep fuel) s i e2 hr hc] at h
            have her : e2 = e := by simpa using h
            rw [← her]
            exact ⟨rfl, hc⟩
    · intro h
      exact opt_parse_rejected_consumed (p.rep fuel) s i e h.1 h.2
  · intro fuel e hp hc
    exact opt_parse_rejected_free (p.rep (fuel + 1)) s i e
      (rep_succ_rejected p fuel s i e hp) hc
  · intro S n hret hadv hfree hs
    obtain ⟨r, hr⟩ := rep_response_stable p S n hret hadv s i hs
    cases r with
    | accepted b =>
      exact ⟨_, fun fuel hfuel => opt_parse_accepted (p.rep fuel) s i b (hr fuel hfuel)⟩
    | rejected e =>
      have hc : e.consumed = false :=
        rep_rejected_free p S (fun t k a ht h => (hadv t k a ht h).1) hfree (n - i + 1) s i e hs
          (hr (n - i + 1) (by omega))
      exact ⟨_, fun fuel hfuel =>
        opt_parse_rejected_free (p.rep fuel) s i e (hr fuel hfuel) hc⟩

/-- Witness of C12, amended: oneThenTwo.optrep() rejects on [1, 3] with the
consumed Reject of its rep; satisfy(x = 1).optrep() accepts the absent sequence
on [3]; and on [1, 1, 3], where satisfy(x = 1) always returns, moves the index
by one on each success and never rejects with the consumed flag, it is an
Accept. -/
theorem optrep_rejects_only_consumed_witness :
    (oneThenTwo.optrep 2).parse [1, 3] 0 = some (Response.rejected ⟨1, true⟩) ∧
      ((satisfy fun x => x == 1).optrep (0 + 1)).parse [3] 0 =
        some (response.accept none [3] 0 false) ∧
      (∃ a, ∀ fuel, 3 - 0 < fuel →
        ((satisfy fun x => x == 1).optrep fuel).parse [1, 1, 3] 0 =
          some (Response.accepted a)) :=
  ⟨((optrep_rejects_only_consumed oneThenTwo [1, 3] 0).1 2 ⟨1, true⟩).mpr
      ⟨by decide, rfl⟩,
    (optrep_rejects_only_consumed (satisfy fun x => x == 1) [3] 0).2.1 0 ⟨0, false⟩
      (by decide) rfl,
    (optrep_rejects_only_consumed (satisfy fun x => x == 1) [1, 1, 3] 0).2.2
      (fun t => t = [1, 1, 3]) 3
      (fun t k _ => satisfy_gives_response (fun x => x == 1) t k)
      (fun t k a ht h =>
        ⟨(satisfy_accepted_list (fun x => x == 1) t k a h).2.2.1.trans ht,
          by
            have h4 := (satisfy_accepted_list (fun x => x == 1) t k a h).2.2.2.1
            omega,
          by
            have h6 := (satisfy_accepted_list (fun x => x == 1) t k a h).2.2.2.2.2
            rw [ht] at h6
            exact h6⟩)
      (fun t k e _ h => by rw [satisfy_rejected (fun x => x == 1) t k e h])
      rfl⟩

/-! ## The consumed flag of an Accept -/

/-- The property of C15 holds of returns(v). -/
theorem consumedIffAdvanced_returns {α σ : Type} (v : α) :
    ConsumedIffAdvanced (returns v : Parser α σ) := by
  intro s i a h
  simp [returns, response.accept] at h
  subst h
  simp

/-- The property of C15 holds of eos(). -/
theorem consumedIffAdvanced_eos {σ τ : Type} [Stream σ τ] :
    ConsumedIffAdvanced (eos : Parser Unit σ) := by
  intro s i a h
  cases he : Stream.endOfStream s i with
  | true =>
    simp [eos, he, response.accept] at h
    subst h
    simp
  | false => simp [eos, he, response.reject] at h

/-- The property of C15 holds of satisfy(pred). -/
theorem consumedIffAdvanced_satisfy {σ τ : Type} [Stream σ τ] (pred : τ → Bool) :
    ConsumedIffAdvanced (satisfy pred : Parser τ σ) := by
  intro s i a h
  cases hg : Stream.get s i with
  | none => simp [satisfy, hg, response.reject, Option.filter] at h
  | some x =>
    cases hx : pred x with
    | false => simp [satisfy, hg, hx, response.reject, Option.filter] at h
    | true =>
      simp [satisfy, hg, hx, response.accept, Option.filter] at h
      subst h
      simp

/-- The property of C15 is preserved by bind. -/
theorem consumedIffAdvanced_bind {α β σ : Type} (p : Parser α σ) (f : α → Parser β σ)
    (hp : ConsumedIffAdvanced p) (hf : ∀ a, ConsumedIffAdvanced (f a)) :
    ConsumedIffAdvanced (p.bind f) := by
  intro s i c h
  simp only [Parser.bind] at h
  cases h1 : p.parse s i with
  | none => simp [h1] at h
  | some x =>
    cases x with
    | rejected e => simp [h1, Response.fold] at h
    | accepted a =>
      cases h2 : (f a.value).parse a.input a.index with
      | none => simp [h1, h2, Response.fold] at h
      | some y =>
        cases y with
        | rejected e => simp [h1, h2, Response.fold, response.reject] at h
        | accepted b =>
          simp [h1, h2, Response.fold, response.accept, Accept.offset] at h
          subst h
          obtain ⟨ha1, ha2⟩ := hp s i a h1
          obtain ⟨hb1, hb2⟩ := hf a.value a.input a.index b h2
          refine ⟨by simp; omega, ?_⟩
          cases hca : a.consumed <;> cases hcb : b.consumed <;> simp_all <;> omega

/-- The property of C15 is preserved by choice. -/
theorem consumedIffAdvanced_choice {α σ : Type} (p q : Parser α σ)
    (hp : ConsumedIffAdvanced p) (hq : ConsumedIffAdvanced q) :
    ConsumedIffAdvanced (p.choice q) := by
  intro s i c h
  simp only [Parser.choice] at h
  cases h1 : p.parse s i with
  | none => simp [h1] at h
  | some x =>
    cases x with
    | accepted a =>
      simp [h1, Response.fold] at h
      subst h
      exact hp s i a h1
    | rejected e =>
      cases hc : e.consumed with
      | true => simp [h1, Response.fold, hc] at h
      | false =>
        simp [h1, Response.fold, hc] at h
        exact hq s i c h

/-- The property of C15 is preserved by map. -/
theorem consumedIffAdvanced_map {α β σ : Type} (p : Parser α σ) (f : α → β)
    (hp : ConsumedIffAdvanced p) : ConsumedIffAdvanced (p.map f) := by
  intro s i c h
  simp only [Parser.map] at h
  cases h1 : p.parse s i with
  | none => simp [h1] at h
  | some x =>
    cases x with
    | rejected e => simp [h1, Response.map] at h
    | accepted a =>
      simp [h1, Response.map] at h
      subst h
      exact hp s i a h1

/-- The property of C15 is preserved by opt. -/
theorem consumedIffAdvanced_opt {α σ : Type} (p : Parser α σ)
    (hp : ConsumedIffAdvanced p) : ConsumedIffAdvanced p.opt :=
  consumedIffAdvanced_choice _ _ (consumedIffAdvanced_map p option.some hp)
    (consumedIffAdvanced_returns option.empty)

/-- The property of C15 is preserved by rep, whatever the bound on its nested
calls. -/
theorem consumedIffAdvanced_rep {α σ : Type} (p : Parser α σ)
    (hp : ConsumedIffAdvanced p) : ∀ fuel, ConsumedIffAdvanced (p.rep fuel) := by
  intro fuel
  induction fuel with
  | zero =>
    intro s i c h
    simp [rep_zero_parse] at h
  | succ m ih =>
    show ConsumedIffAdvanced
      (p.bind fun a => ((p.rep m).opt).map fun b => [a] ++ option.orElse b [])
    exact consumedIffAdvanced_bind p _ hp fun a =>
      consumedIffAdvanced_map _ _ (consumedIffAdvanced_opt _ ih)

/-- The property of C15 is preserved by try. -/
theorem consumedIffAdvanced_doTry {α σ : Type} (p : Parser α σ)
    (hp : ConsumedIffAdvanced p) : ConsumedIffAdvanced (doTry p) := by
  intro s i c h
  simp only [doTry] at h
  cases h1 : p.parse s i with
  | none => simp [h1] at h
  | some x =>
    cases x with
    | rejected e => simp [h1, Response.fold, response.reject] at h
    | accepted a =>
      simp [h1, Response.fold] at h
      subst h
      exact hp s i a h1

/-- C15. The consumed flag of an Accept means exactly that the index advanced.
The property, for every stream s and index i, that an Accept at (s,i) with
next index j and flag c has j at least i and c true if and only if j is
greater than i, holds of returns(v), eos() and satisfy(pred), and is preserved
by bind (when it holds of p and of f(a) for every a), by choice and or, by
opt, by rep and optrep, and by try. -/
theorem consumed_iff_advanced (α β σ τ : Type) [Stream σ τ] :
    (∀ v : α, ConsumedIffAdvanced (returns v : Parser α σ)) ∧
      ConsumedIffAdvanced (eos : Parser Unit σ) ∧
      (∀ pred : τ → Bool, ConsumedIffAdvanced (satisfy pred : Parser τ σ)) ∧
      (∀ (p : Parser α σ) (f : α → Parser β σ), ConsumedIffAdvanced p →
        (∀ a, ConsumedIffAdvanced (f a)) → ConsumedIffAdvanced (p.bind f)) ∧
      (∀ p q : Parser α σ, ConsumedIffAdvanced p → ConsumedIffAdvanced q →
        ConsumedIffAdvanced (p.choice q) ∧ ConsumedIffAdvanced (p.or q)) ∧
      (∀ p : Parser α σ, ConsumedIffAdvanced p → ConsumedIffAdvanced p.opt) ∧
      (∀ (p : Parser α σ) (fuel : Nat), ConsumedIffAdvanced p →
        ConsumedIffAdvanced (p.rep fuel) ∧ ConsumedIffAdvanced (p.optrep fuel)) ∧
      (∀ p : Parser α σ, ConsumedIffAdvanced p → ConsumedIffAdvanced (doTry p)) :=
  ⟨fun v => consumedIffAdvanced_returns v,
    consumedIffAdvanced_eos,
    fun pred => consumedIffAdvanced_satisfy pred,
    fun p f hp hf => consumedIffAdvanced_bind p f hp hf,
    fun p q hp hq =>
      ⟨consumedIffAdvanced_choice p q hp hq, consumedIffAdvanced_choice p q hp hq⟩,
    fun p hp => consumedIffAdvanced_opt p hp,
    fun p fuel hp =>
      ⟨consumedIffAdvanced_rep p hp fuel,
        consumedIffAdvanced_opt _ (consumedIffAdvanced_rep p hp fuel)⟩,
    fun p hp => consumedIffAdvanced_doTry p hp⟩

/-- Witness of C15: the property holds of oneThenTwo, the bind of two satisfy
parsers, of the repetition of satisfy(x = 1), and of the choice between try
of satisfy(x = 1) and returns(7). -/
theorem consumed_iff_advanced_witness :
    ConsumedIffAdvanced oneThenTwo ∧
      (ConsumedIffAdvanced ((satisfy fun x => x == 1 : Parser Nat (List Nat)).rep 4) ∧
        ConsumedIffAdvanced ((satisfy fun x => x == 1 : Parser Nat (List Nat)).optrep 4)) ∧
      (ConsumedIffAdvanced
          ((doTry (satisfy fun x => x == 1 : Parser Nat (List Nat))).choice (returns 7)) ∧
        ConsumedIffAdvanced
          ((doTry (satisfy fun x => x == 1 : Parser Nat (List Nat))).or (returns 7))) :=
  ⟨(consumed_iff_advanced Nat Nat (List Nat) Nat).2.2.2.1 (satisfy fun x => x == 1)
      (fun _ => satisfy fun x => x == 2)
      ((consumed_iff_advanced Nat Nat (List Nat) Nat).2.2.1 fun x => x == 1)
      (fun _ => (consumed_iff_advanced Nat Nat (List Nat) Nat).2.2.1 fun x => x == 2),
    (consumed_iff_advanced Nat Nat (List Nat) Nat).2.2.2.2.2.2.1 (satisfy fun x => x == 1) 4
      ((consumed_iff_advanced Nat Nat (List Nat) Nat).2.2.1 fun x => x == 1),
    (consumed_iff_advanced Nat Nat (List Nat) Nat).2.2.2.2.1
      (doTry (satisfy fun x => x == 1)) (returns 7)
      ((consumed_iff_advanced Nat Nat (List Nat) Nat).2.2.2.2.2.2.2 (satisfy fun x => x == 1)
        ((consumed_iff_advanced Nat Nat (List Nat) Nat).2.2.1 fun x => x == 1))
      ((consumed_iff_advanced Nat Nat (List Nat) Nat).1 7)⟩

/-! ## thenLeft, thenRight and numberLiteral -/

/-- C17. The methods thenRight and thenLeft (parser.js lines 117 to 125) call
this.and(p) and index the result. No method and is among those that parser.js
puts on Parser.prototype, and the constructor sets the property parse alone,
so a Parser has no member and: the call throws before any parser is built. The
method then, which the claim compares them with, is a member. -/
theorem thenRight_calls_missing_and :
    Parser.hasMember "and" = false ∧ Parser.hasMember "then" = true := by
  decide

end Masala
